import Mathlib

/-!
Shallow embedding of the recurrence & lifecycle engine of the
reconciliation app (`src/app.py`), together with theorems settling the
spec claims about it.

Python `datetime.date` values are modelled by the `Date` structure below
with proleptic-Gregorian ordinal arithmetic matching `date.toordinal`
(`0001-01-01` has ordinal 1) and `date.weekday` (Monday = 0).
`timedelta(days=n)` addition is modelled by iterating the successor-day
function, and date comparison by ordinal comparison.
-/

namespace Recon

/-- A civil date, mirroring Python's `datetime.date` fields. -/
structure Date where
  year : Nat
  month : Nat
  day : Nat
deriving DecidableEq, Repr

/-- Gregorian leap-year rule (as used by Python's `datetime`). -/
def isLeap (y : Nat) : Bool := (y % 4 == 0 && y % 100 != 0) || y % 400 == 0

/-- Number of days in month `m` of a year whose leap flag is `leap`. -/
def daysInMonthL (leap : Bool) (m : Nat) : Nat :=
  if m = 2 then (if leap then 29 else 28)
  else if m = 4 ∨ m = 6 ∨ m = 9 ∨ m = 11 then 30
  else 31

/-- Number of days in month `m` of year `y`. -/
def daysInMonth (y m : Nat) : Nat := daysInMonthL (isLeap y) m

/-- Days of a `leap`-flagged year that fall strictly before month `m`. -/
def daysBeforeMonthL (leap : Bool) : Nat → Nat
  | 0 => 0
  | 1 => 0
  | m + 2 => daysBeforeMonthL leap (m + 1) + daysInMonthL leap (m + 1)

/-- Days in year `y` that fall strictly before month `m`. -/
def daysBeforeMonth (y m : Nat) : Nat := daysBeforeMonthL (isLeap y) m

/-- Days strictly before January 1 of year `y` (proleptic Gregorian);
`daysBeforeYear 1 = 0`, matching Python's `date(1,1,1).toordinal() = 1`. -/
def daysBeforeYear (y : Nat) : Nat :=
  365 * (y - 1) + (y - 1) / 4 + (y - 1) / 400 - (y - 1) / 100

/-- Python's `date.toordinal`. -/
def toordinal (d : Date) : Nat :=
  daysBeforeYear d.year + daysBeforeMonth d.year d.month + d.day

/-- Python's `date.weekday`: Monday = 0, …, Sunday = 6. -/
def weekday (d : Date) : Nat := (toordinal d + 6) % 7

/-- The date is a real calendar date. -/
def Date.Valid (d : Date) : Prop :=
  1 ≤ d.year ∧ 1 ≤ d.month ∧ d.month ≤ 12 ∧ 1 ≤ d.day ∧ d.day ≤ daysInMonth d.year d.month

instance (d : Date) : Decidable d.Valid := by
  unfold Date.Valid; infer_instance

/-- Successor day (`d + timedelta(days=1)` for a valid `d`). -/
def nextDay (d : Date) : Date :=
  if d.day < daysInMonth d.year d.month then ⟨d.year, d.month, d.day + 1⟩
  else if d.month < 12 then ⟨d.year, d.month + 1, 1⟩
  else ⟨d.year + 1, 1, 1⟩

/-- `d + timedelta(days=n)`. -/
def addDays (d : Date) (n : Nat) : Date := Nat.iterate nextDay n d

/-- Date comparison `a < b` (Python compares dates by calendar order). -/
def dlt (a b : Date) : Bool := decide (toordinal a < toordinal b)

/-- Date comparison `a ≤ b`. -/
def dle (a b : Date) : Bool := decide (toordinal a ≤ toordinal b)

theorem daysInMonthL_pos (leap : Bool) (m : Nat) : 1 ≤ daysInMonthL leap m := by
  unfold daysInMonthL
  split
  · split <;> omega
  · split <;> omega

theorem daysInMonth_pos (y m : Nat) : 1 ≤ daysInMonth y m := daysInMonthL_pos _ m

theorem daysBeforeMonth_succ (y m : Nat) (hm : 1 ≤ m) :
    daysBeforeMonth y (m + 1) = daysBeforeMonth y m + daysInMonth y m := by
  unfold daysBeforeMonth daysInMonth
  match m, hm with
  | m + 1, _ => rfl

theorem daysBeforeMonth_twelve (y : Nat) :
    daysBeforeMonth y 12 = 334 + (if isLeap y then 1 else 0) := by
  unfold daysBeforeMonth
  cases isLeap y <;> rfl

theorem daysBeforeMonth_one (y : Nat) : daysBeforeMonth y 1 = 0 := rfl

theorem daysBeforeYear_succ (y : Nat) (hy : 1 ≤ y) :
    daysBeforeYear (y + 1) = daysBeforeYear y + 365 + (if isLeap y then 1 else 0) := by
  obtain ⟨a, rfl⟩ : ∃ a, y = a + 1 := ⟨y - 1, by omega⟩
  unfold daysBeforeYear isLeap
  simp only [Nat.add_sub_cancel, Nat.succ_div]
  have h1 : (a + 1) / 100 ≤ (a + 1) / 4 := Nat.div_le_div_left (by norm_num) (by norm_num)
  have h2 : (a / 100 ≤ a / 4) := Nat.div_le_div_left (by norm_num) (by norm_num)
  have h4 : (4 ∣ a + 1) ↔ (a + 1) % 4 = 0 := Nat.dvd_iff_mod_eq_zero
  have h100 : (100 ∣ a + 1) ↔ (a + 1) % 100 = 0 := Nat.dvd_iff_mod_eq_zero
  have h400 : (400 ∣ a + 1) ↔ (a + 1) % 400 = 0 := Nat.dvd_iff_mod_eq_zero
  simp only [h4, h100, h400, Bool.or_eq_true, Bool.and_eq_true, beq_iff_eq, bne_iff_ne]
  split_ifs <;> omega

theorem valid_nextDay {d : Date} (h : d.Valid) : (nextDay d).Valid := by
  obtain ⟨y, m, day⟩ := d
  simp only [Date.Valid] at h
  obtain ⟨hy, hm1, hm2, hd1, hd2⟩ := h
  simp only [nextDay]
  split_ifs with h1 h2
  · exact ⟨hy, hm1, hm2, show 1 ≤ day + 1 by omega, show day + 1 ≤ daysInMonth y m from h1⟩
  · exact ⟨hy, show 1 ≤ m + 1 by omega, show m + 1 ≤ 12 by omega, le_refl 1,
      daysInMonth_pos y (m + 1)⟩
  · exact ⟨show 1 ≤ y + 1 by omega, le_refl 1, show (1 : Nat) ≤ 12 by omega, le_refl 1,
      daysInMonth_pos (y + 1) 1⟩

theorem toordinal_nextDay {d : Date} (h : d.Valid) :
    toordinal (nextDay d) = toordinal d + 1 := by
  obtain ⟨y, m, day⟩ := d
  simp only [Date.Valid] at h
  obtain ⟨hy, hm1, hm2, hd1, hd2⟩ := h
  simp only [nextDay]
  split_ifs with h1 h2
  · simp only [toordinal]; omega
  · have hday : day = daysInMonth y m := by omega
    have hsucc := daysBeforeMonth_succ y m hm1
    simp only [toordinal, hsucc, hday]
    omega
  · have hm12 : m = 12 := by omega
    subst hm12
    have h31 : daysInMonth y 12 = 31 := by
      unfold daysInMonth
      cases isLeap y <;> rfl
    have hday : day = 31 := by omega
    subst hday
    have hby := daysBeforeYear_succ y hy
    have hbm := daysBeforeMonth_twelve y
    simp only [toordinal, daysBeforeMonth_one, hby, hbm]
    split_ifs <;> omega

theorem valid_addDays {d : Date} (h : d.Valid) (n : Nat) : (addDays d n).Valid := by
  induction n with
  | zero => exact h
  | succ k ih =>
    have hiter : addDays d (k + 1) = nextDay (addDays d k) :=
      Function.iterate_succ_apply' nextDay k d
    rw [hiter]
    exact valid_nextDay ih

theorem toordinal_addDays {d : Date} (h : d.Valid) (n : Nat) :
    toordinal (addDays d n) = toordinal d + n := by
  induction n with
  | zero => rfl
  | succ k ih =>
    have hiter : addDays d (k + 1) = nextDay (addDays d k) :=
      Function.iterate_succ_apply' nextDay k d
    rw [hiter, toordinal_nextDay (valid_addDays h k), ih]
    omega

theorem weekday_addDays {d : Date} (h : d.Valid) (n : Nat) :
    weekday (addDays d n) = (weekday d + n) % 7 := by
  unfold weekday
  rw [toordinal_addDays h n]
  omega

theorem addDays_addDays (d : Date) (a b : Nat) :
    addDays (addDays d a) b = addDays d (a + b) := by
  unfold addDays
  rw [Nat.add_comm a b]
  exact (Function.iterate_add_apply nextDay b a d).symm

theorem weekday_lt_seven (d : Date) : weekday d < 7 := Nat.mod_lt _ (by norm_num)

/-! ## Calendar helpers from `src/app.py`

`get_last_working_day_of_week` and `get_next_last_working_day_of_week`
mirror the two static methods of `Reconciliation`; the source reads
"today" from the wall clock, which is passed here as an explicit
argument.  `advanceWhileWeekend` models the bounded
`while d.weekday() >= 5: d += timedelta(days=1)` loops (which advance at
most two days from any real date; fuel 7 is ample). -/

/-- `while weekday ≥ 5: d += 1 day`, fuel-bounded. -/
def advanceWhileWeekend : Nat → Date → Date
  | 0, d => d
  | fuel + 1, d => if 5 ≤ weekday d then advanceWhileWeekend fuel (nextDay d) else d

/-- `Reconciliation.get_last_working_day_of_week` (src/app.py:156-166). -/
def get_last_working_day_of_week (reference_date : Date) : Date :=
  let days_until_friday : Int := 4 - (weekday reference_date : Int)
  let days_until_friday :=
    if days_until_friday < 0 then days_until_friday + 7 else days_until_friday
  addDays reference_date days_until_friday.toNat

/-- `Reconciliation.get_next_last_working_day_of_week` (src/app.py:168-180);
the source reads `today` from the clock. -/
def get_next_last_working_day_of_week (today : Date) : Date :=
  let days_until_friday : Int := 4 - (weekday today : Int)
  let days_until_friday :=
    if days_until_friday ≤ 0 then days_until_friday + 7 else days_until_friday
  let next_friday := addDays today days_until_friday.toNat
  if 4 ≤ weekday today then addDays next_friday 7 else next_friday

/-- `Reconciliation.calculate_next_due` (src/app.py:182-206); `frequency` is
the task's frequency field and `today` is read from the clock in the source. -/
def calculate_next_due (frequency : String) (today : Date) : Date :=
  if frequency == "Daily" then
    advanceWhileWeekend 7 (addDays today 1)
  else if frequency == "Weekly" then
    get_next_last_working_day_of_week today
  else if frequency == "Monthly" then
    let month := today.month + 1
    let year := today.year
    let ym : Nat × Nat := if month > 12 then (year + 1, 1) else (year, month)
    advanceWhileWeekend 7 ⟨ym.1, ym.2, 1⟩
  else today

/-! ## Task model and overdue evaluator -/

/-- An instant: civil date plus time of day (Sri Lanka civil time in the
source; the fixed offset itself plays no role in the embedded logic). -/
structure DateTime where
  date : Date
  hour : Nat
  minute : Nat
deriving DecidableEq, Repr

/-- The lifecycle-relevant fields of the `Reconciliation` model
(src/app.py:102-123); name/description/priority and the systems columns
never influence the engine and are omitted. -/
structure Task where
  id : Nat
  frequency : String
  status : String
  due_date : Option Date
  due_time : Option String
  next_due : Option Date
  assigned_to : Option Nat
  last_completed : Option DateTime
  items_reconciled : Int
  exceptions_found : Int
  completion_notes : String
  completed_by : Option String
  overdue_notified : Bool
deriving DecidableEq, Repr

/-- Python truthiness of an optional string (`None` and `""` are falsy). -/
def truthyStr (s : Option String) : Bool :=
  match s with
  | none => false
  | some s => !(s == "")

/-- `due_time.split(':')` on the character list. -/
def splitOnColon : List Char → List (List Char)
  | [] => [[]]
  | c :: rest =>
    match splitOnColon rest with
    | [] => [[]]
    | g :: gs => if c = ':' then [] :: g :: gs else (c :: g) :: gs

/-- `int(...)` on one split component: digits only, else failure. -/
def digitsToNat? (cs : List Char) : Option Nat :=
  if cs.isEmpty then none
  else
    cs.foldl
      (fun acc c =>
        match acc with
        | none => none
        | some n => if c.isDigit then some (n * 10 + (c.toNat - 48)) else none)
      (some 0)

/-- `due_hour, due_min = map(int, due_time.split(':'))`; `none` when the
Python code would raise (wrong shape or non-numeric parts). -/
def parse_due_time (s : String) : Option (Nat × Nat) :=
  match (splitOnColon s.toList).map digitsToNat? with
  | [some h, some m] => some (h, m)
  | _ => none

/-- `Reconciliation.is_overdue` (src/app.py:124-148), with the clock value
passed explicitly.  A parse failure of `due_time` falls through to the
final `return False` (the `except: pass`), not to the Weekly/Monthly arm. -/
def is_overdue (t : Task) (now : DateTime) : Bool :=
  if t.status == "Completed" || !t.due_date.isSome then false
  else
    match t.due_date with
    | none => false
    | some dd =>
      if dlt dd now.date then true
      else if dd == now.date then
        if t.frequency == "Daily" && truthyStr t.due_time then
          match parse_due_time (t.due_time.getD "") with
          | some (dh, dm) => decide (dh < now.hour ∨ (now.hour = dh ∧ dm < now.minute))
          | none => false
        else if t.frequency == "Weekly" || t.frequency == "Monthly" then
          decide (23 ≤ now.hour ∧ 59 ≤ now.minute)
        else false
      else false

/-! ## Completion (`complete_reconciliation` route, src/app.py:755-813) -/

/-- The immutable history snapshot appended on completion; fields that are
pure display strings are omitted. -/
structure CompletionHistory where
  reconciliation_id : Nat
  frequency : String
  due_date : Option Date
  items_reconciled : Int
  exceptions_found : Int
  completion_notes : String
  completed_by : String
  was_overdue : Bool
  days_overdue : Nat
deriving DecidableEq, Repr

/-- Outcome of a complete request: the (possibly updated) task row, the
history row appended (if any) and whether the request was rejected with
the overdue-permission error. -/
structure CompleteResult where
  task : Task
  history : Option CompletionHistory
  rejected : Bool
deriving DecidableEq, Repr

/-- The `complete_reconciliation` route (src/app.py:755-813): the
permission guard, then the POST body. -/
def complete_reconciliation (t : Task) (actor_is_admin : Bool) (actor_name : String)
    (now : DateTime) (items exceptions : Int) (notes : String) : CompleteResult :=
  if is_overdue t now && !actor_is_admin then
    { task := t, history := none, rejected := true }
  else
    let was_overdue := is_overdue t now
    let days_overdue : Nat :=
      match t.due_date with
      | some dd => if dlt dd now.date then toordinal now.date - toordinal dd else 0
      | none => 0
    let h : CompletionHistory :=
      { reconciliation_id := t.id, frequency := t.frequency, due_date := t.due_date,
        items_reconciled := items, exceptions_found := exceptions,
        completion_notes := notes, completed_by := actor_name,
        was_overdue := was_overdue, days_overdue := days_overdue }
    let t' : Task :=
      { t with
        status := "Completed", last_completed := some now,
        items_reconciled := items, exceptions_found := exceptions,
        completion_notes := notes, completed_by := some actor_name,
        next_due := some (calculate_next_due t.frequency now.date),
        overdue_notified := false }
    { task := t', history := some h, rejected := false }

/-! ## Auto-reset sweep (src/app.py:331-361) -/

/-- The SQL filter `status == 'Completed' AND next_due <= today` (a NULL
`next_due` never satisfies `<=`). -/
def reset_eligible (today : Date) (t : Task) : Bool :=
  t.status == "Completed" &&
    (match t.next_due with
     | some nd => dle nd today
     | none => false)

/-- The per-task body of the reset loop. -/
def reset_rec (today : Date) (t : Task) : Task :=
  { t with
    status := "Pending", due_date := t.next_due,
    next_due := some (calculate_next_due t.frequency today),
    items_reconciled := 0, exceptions_found := 0, completion_notes := "",
    completed_by := none, overdue_notified := false }

/-- `auto_reset_completed_reconciliations` (src/app.py:331-361): returns
the updated task table and the reset count. -/
def auto_reset_completed_reconciliations (today : Date) (tasks : List Task) :
    List Task × Nat :=
  (tasks.map (fun t => if reset_eligible today t then reset_rec today t else t),
   (tasks.filter (reset_eligible today)).length)

/-! ## Notifications (src/app.py:247-298) -/

/-- The dedup-relevant fields of the `Notification` model; title/message
text is omitted. -/
structure Notification where
  type : String
  for_admins : Bool
  for_member_id : Option Nat
  rec_id : Option Nat
  is_read : Bool
deriving DecidableEq, Repr

/-- The dedup query `filter_by(rec_id=recId, type='danger', is_read=False)`. -/
def unread_danger_for (recId : Nat) (n : Notification) : Bool :=
  n.rec_id == some recId && n.type == "danger" && !n.is_read

/-- The danger record addressed to all admins for task `t`. -/
def admin_record (t : Task) : Notification :=
  { type := "danger", for_admins := true, for_member_id := none,
    rec_id := some t.id, is_read := false }

/-- The danger record addressed to the assignee of `t`, when one exists. -/
def member_records (t : Task) : List Notification :=
  if t.assigned_to.isSome then
    [{ type := "danger", for_admins := false, for_member_id := t.assigned_to,
       rec_id := some t.id, is_read := false }]
  else []

/-- `create_overdue_notification` (src/app.py:247-280): no-op when an
unread danger record for the task exists, otherwise appends one record
for all admins plus one for the assignee when present.  Returns the new
notification table and the function's boolean result. -/
def create_overdue_notification (notifs : List Notification) (t : Task) :
    List Notification × Bool :=
  if notifs.any (unread_danger_for t.id) then (notifs, false)
  else (notifs ++ admin_record t :: member_records t, true)

/-- The shared store: the task table and the notification table. -/
structure AppState where
  tasks : List Task
  notifs : List Notification
deriving DecidableEq, Repr

/-- The query filter of `check_and_create_overdue_notifications` combined
with the in-Python `is_overdue` refinement. -/
def overdue_unnotified (now : DateTime) (t : Task) : Bool :=
  !(t.status == "Completed") && !t.overdue_notified && is_overdue t now

/-- One iteration of the notification loop over the task table: tasks not
matching the filter pass through; matching ones attempt a create and have
`overdue_notified` set when it succeeds. -/
def notify_step (now : DateTime) (acc : List Task × List Notification) (t : Task) :
    List Task × List Notification :=
  if overdue_unnotified now t then
    let res := create_overdue_notification acc.2 t
    (acc.1 ++ [if res.2 then { t with overdue_notified := true } else t], res.1)
  else (acc.1 ++ [t], acc.2)

/-- `check_and_create_overdue_notifications` (src/app.py:282-298): runs
the loop and returns `len(overdue_recs)` — the number of tasks that
matched the filter, whether or not a record was created for them. -/
def check_and_create_overdue_notifications (now : DateTime) (st : AppState) :
    AppState × Nat :=
  let res := st.tasks.foldl (notify_step now) ([], st.notifs)
  (⟨res.1, res.2⟩, (st.tasks.filter (overdue_unnotified now)).length)

/-- `/api/check-overdue` (src/app.py:864-875): the maintenance trigger;
returns the new state, `reset_count` and `notification_count`. -/
def api_check_overdue (now : DateTime) (st : AppState) : AppState × Nat × Nat :=
  let r1 := auto_reset_completed_reconciliations now.date st.tasks
  let r2 := check_and_create_overdue_notifications now ⟨r1.1, st.notifs⟩
  (r2.1, r1.2, r2.2)

/-- N successive notification sweeps, at the given sequence of instants. -/
def sweep_many (nows : List DateTime) (st : AppState) : AppState :=
  nows.foldl (fun s nw => (check_and_create_overdue_notifications nw s).1) st

/-! ## Calendar lemmas -/

theorem glw_eq_workday (d : Date) (hw : weekday d ≤ 4) :
    get_last_working_day_of_week d = addDays d (4 - weekday d) := by
  unfold get_last_working_day_of_week
  have hneg : ¬((4 : Int) - (weekday d : Int) < 0) := by omega
  simp only [hneg, if_false]
  congr 1
  omega

theorem glw_eq_weekend (d : Date) (hw : 5 ≤ weekday d) :
    get_last_working_day_of_week d = addDays d (11 - weekday d) := by
  have h7 := weekday_lt_seven d
  unfold get_last_working_day_of_week
  have hneg : ((4 : Int) - (weekday d : Int) < 0) := by omega
  simp only [hneg, if_true]
  congr 1
  omega

theorem gnlw_eq_early (d : Date) (hw : weekday d ≤ 3) :
    get_next_last_working_day_of_week d = addDays d (4 - weekday d) := by
  unfold get_next_last_working_day_of_week
  have hpos : ¬((4 : Int) - (weekday d : Int) ≤ 0) := by omega
  have hlt : ¬(4 ≤ weekday d) := by omega
  simp only [hpos, hlt, if_false]
  congr 1
  omega

theorem gnlw_eq_late (d : Date) (hw : 4 ≤ weekday d) :
    get_next_last_working_day_of_week d = addDays d (18 - weekday d) := by
  have h7 := weekday_lt_seven d
  unfold get_next_last_working_day_of_week
  have hle : ((4 : Int) - (weekday d : Int) ≤ 0) := by omega
  simp only [hle, hw, if_true]
  rw [addDays_addDays]
  congr 1
  omega

/-- The value claim C4 asserts for `nextLastWorkingDayOfWeek`: the Friday
of the (Monday-started) week after `ref`, plus one further week when
`ref` falls on Friday or later.  Stated from the spec's words, for
comparison with the code's `get_next_last_working_day_of_week`. -/
def claimed_next_last_working_day (ref : Date) : Date :=
  let fridayOfFollowingWeek := addDays ref (7 - weekday ref + 4)
  if 4 ≤ weekday ref then addDays fridayOfFollowingWeek 7 else fridayOfFollowingWeek

/-- C5, as amended: `lastWorkingDayOfWeek` always lands on a Friday; for
Monday–Friday reference dates it is the Friday of `d`'s own week
(`d + (4 − weekday d)`, in particular `d` itself on a Friday), but for
Saturday and Sunday it is the *next* week's Friday (`d + (11 − weekday d)`),
strictly after `d` — not the same week's Friday on or before `d`. -/
theorem get_last_working_day_spec (d : Date) (h : d.Valid) :
    weekday (get_last_working_day_of_week d) = 4 ∧
    (weekday d ≤ 4 → get_last_working_day_of_week d = addDays d (4 - weekday d)) ∧
    (5 ≤ weekday d →
      get_last_working_day_of_week d = addDays d (11 - weekday d) ∧
      toordinal d < toordinal (get_last_working_day_of_week d)) := by
  have h7 := weekday_lt_seven d
  by_cases hw : weekday d ≤ 4
  · rw [glw_eq_workday d hw]
    refine ⟨?_, fun _ => rfl, fun h5 => absurd h5 (by omega)⟩
    rw [weekday_addDays h]
    omega
  · rw [glw_eq_weekend d (by omega)]
    refine ⟨?_, fun hle => absurd hle hw, fun _ => ⟨rfl, ?_⟩⟩
    · rw [weekday_addDays h]
      omega
    · rw [toordinal_addDays h]
      omega

/-- Witness for `get_last_working_day_spec` at Friday 2026-01-09. -/
theorem get_last_working_day_spec_witness :
    weekday (get_last_working_day_of_week ⟨2026, 1, 9⟩) = 4 ∧
    get_last_working_day_of_week ⟨2026, 1, 9⟩
      = addDays ⟨2026, 1, 9⟩ (4 - weekday ⟨2026, 1, 9⟩) :=
  ⟨(get_last_working_day_spec ⟨2026, 1, 9⟩ (by decide)).1,
   (get_last_working_day_spec ⟨2026, 1, 9⟩ (by decide)).2.1 (by decide)⟩

/-- Counterexample to C5 as stated: for the Saturday 2026-01-10 the code
returns 2026-01-16, the Friday of the *next* week, strictly after the
reference date — not that same week's Friday (2026-01-09) on or before it. -/
theorem get_last_working_day_counterexample :
    get_last_working_day_of_week ⟨2026, 1, 10⟩ = ⟨2026, 1, 16⟩ ∧
    weekday ⟨2026, 1, 10⟩ = 5 ∧
    toordinal ⟨2026, 1, 10⟩ < toordinal ⟨2026, 1, 16⟩ ∧
    (⟨2026, 1, 16⟩ : Date) ≠ ⟨2026, 1, 9⟩ := by decide

/-- C4, as amended: `nextLastWorkingDayOfWeek` always lands on a Friday;
for Monday–Thursday reference dates it returns the Friday of `ref`'s own
week (`ref + (4 − weekday ref)`), not the Friday of the week after; for
Friday/Saturday/Sunday it returns the Friday of the week after next
(`ref + (18 − weekday ref)`, i.e. one full week beyond the next Friday). -/
theorem get_next_last_working_day_spec (ref : Date) (h : ref.Valid) :
    weekday (get_next_last_working_day_of_week ref) = 4 ∧
    (weekday ref ≤ 3 →
      get_next_last_working_day_of_week ref = addDays ref (4 - weekday ref)) ∧
    (4 ≤ weekday ref →
      get_next_last_working_day_of_week ref = addDays ref (18 - weekday ref)) := by
  have h7 := weekday_lt_seven ref
  by_cases hw : weekday ref ≤ 3
  · rw [gnlw_eq_early ref hw]
    refine ⟨?_, fun _ => rfl, fun h4 => absurd h4 (by omega)⟩
    rw [weekday_addDays h]
    omega
  · rw [gnlw_eq_late ref (by omega)]
    refine ⟨?_, fun hle => absurd hle hw, fun _ => rfl⟩
    rw [weekday_addDays h]
    omega

/-- Witness for `get_next_last_working_day_spec` at Monday 2026-01-05. -/
theorem get_next_last_working_day_spec_witness :
    weekday (get_next_last_working_day_of_week ⟨2026, 1, 5⟩) = 4 ∧
    get_next_last_working_day_of_week ⟨2026, 1, 5⟩
      = addDays ⟨2026, 1, 5⟩ (4 - weekday ⟨2026, 1, 5⟩) :=
  ⟨(get_next_last_working_day_spec ⟨2026, 1, 5⟩ (by decide)).1,
   (get_next_last_working_day_spec ⟨2026, 1, 5⟩ (by decide)).2.1 (by decide)⟩

/-- Counterexample to C4 as stated: for the Monday 2026-01-05 the code
returns 2026-01-09 (the Friday of the *same* week), while the claim's
"Friday of the week after ref" is 2026-01-16. -/
theorem get_next_last_working_day_counterexample :
    get_next_last_working_day_of_week ⟨2026, 1, 5⟩ = ⟨2026, 1, 9⟩ ∧
    claimed_next_last_working_day ⟨2026, 1, 5⟩ = ⟨2026, 1, 16⟩ ∧
    (⟨2026, 1, 9⟩ : Date) ≠ ⟨2026, 1, 16⟩ := by decide

/-! ## Concrete sample rows used by witnesses and counterexamples
(2026-01-07 is a Wednesday.) -/

/-- A Pending Daily task due today (2026-01-07) at 17:00. -/
def sampleDaily : Task where
  id := 1
  frequency := "Daily"
  status := "Pending"
  due_date := some ⟨2026, 1, 7⟩
  due_time := some "17:00"
  next_due := none
  assigned_to := none
  last_completed := none
  items_reconciled := 0
  exceptions_found := 0
  completion_notes := ""
  completed_by := none
  overdue_notified := false

/-- A Pending Weekly task due today (2026-01-07). -/
def sampleWeekly : Task :=
  { sampleDaily with id := 2, frequency := "Weekly", due_time := none }

/-- A Daily task due today with a malformed `due_time`. -/
def sampleMalformed : Task :=
  { sampleDaily with id := 3, due_time := some "5pm" }

/-- A Pending Daily task whose due date (2026-01-02) is in the past. -/
def sampleOverdue : Task :=
  { sampleDaily with id := 4, due_date := some ⟨2026, 1, 2⟩ }

/-! ## Overdue evaluator claims -/

/-- C6: for a non-Completed Daily task with a (parseable) `dueTime` whose
`dueDate` is today, `isOverdue` holds exactly when the current time-of-day
strictly exceeds the due time: hour greater, or equal hour with strictly
greater minute — exactly the due minute is not overdue. -/
theorem is_overdue_daily_time (t : Task) (now : DateTime) (s : String) (dh dm : Nat)
    (hst : t.status ≠ "Completed")
    (hfreq : t.frequency = "Daily")
    (hdd : t.due_date = some now.date)
    (hdt : t.due_time = some s)
    (hparse : parse_due_time s = some (dh, dm)) :
    is_overdue t now = true ↔ dh < now.hour ∨ (now.hour = dh ∧ dm < now.minute) := by
  have hs : s ≠ "" := by
    intro he
    rw [he] at hparse
    have hnone : parse_due_time "" = none := by decide
    rw [hnone] at hparse
    exact Option.noConfusion hparse
  unfold is_overdue
  rw [hdd, hdt, hfreq]
  simp +decide [truthyStr, dlt, hst, hs, hparse]

/-- Witness for `is_overdue_daily_time`: a Daily task due today 17:00 is
overdue at 17:01 and not at exactly 17:00 or at 16:59. -/
theorem is_overdue_daily_time_witness :
    (is_overdue sampleDaily ⟨⟨2026, 1, 7⟩, 17, 1⟩ = true ↔
      17 < 17 ∨ (17 = 17 ∧ 0 < 1)) ∧
    (is_overdue sampleDaily ⟨⟨2026, 1, 7⟩, 17, 0⟩ = true ↔
      17 < 17 ∨ (17 = 17 ∧ 0 < 0)) ∧
    (is_overdue sampleDaily ⟨⟨2026, 1, 7⟩, 16, 59⟩ = true ↔
      17 < 16 ∨ (16 = 17 ∧ 0 < 59)) :=
  ⟨is_overdue_daily_time sampleDaily ⟨⟨2026, 1, 7⟩, 17, 1⟩ "17:00" 17 0
      (by decide) rfl rfl rfl (by decide),
   is_overdue_daily_time sampleDaily ⟨⟨2026, 1, 7⟩, 17, 0⟩ "17:00" 17 0
      (by decide) rfl rfl rfl (by decide),
   is_overdue_daily_time sampleDaily ⟨⟨2026, 1, 7⟩, 16, 59⟩ "17:00" 17 0
      (by decide) rfl rfl rfl (by decide)⟩

/-- C7: a non-Completed Weekly or Monthly task due today becomes overdue
only once the time-of-day reaches 23:59; at every earlier minute of the
due day it is not overdue. -/
theorem is_overdue_weekly_monthly_eod (t : Task) (now : DateTime)
    (hst : t.status ≠ "Completed")
    (hfreq : t.frequency = "Weekly" ∨ t.frequency = "Monthly")
    (hdd : t.due_date = some now.date)
    (hh : now.hour < 24) (hm : now.minute < 60) :
    is_overdue t now = true ↔ 23 * 60 + 59 ≤ now.hour * 60 + now.minute := by
  unfold is_overdue
  rw [hdd]
  rcases hfreq with hf | hf <;> rw [hf] <;>
    simp +decide [truthyStr, dlt, hst] <;> omega

/-- Witness for `is_overdue_weekly_monthly_eod`: a Weekly task due today is
not overdue at 22:00 and is overdue at 23:59. -/
theorem is_overdue_weekly_monthly_eod_witness :
    (is_overdue sampleWeekly ⟨⟨2026, 1, 7⟩, 22, 0⟩ = true ↔
      23 * 60 + 59 ≤ 22 * 60 + 0) ∧
    (is_overdue sampleWeekly ⟨⟨2026, 1, 7⟩, 23, 59⟩ = true ↔
      23 * 60 + 59 ≤ 23 * 60 + 59) :=
  ⟨is_overdue_weekly_monthly_eod sampleWeekly ⟨⟨2026, 1, 7⟩, 22, 0⟩
      (by decide) (Or.inl rfl) rfl (by decide) (by decide),
   is_overdue_weekly_monthly_eod sampleWeekly ⟨⟨2026, 1, 7⟩, 23, 59⟩
      (by decide) (Or.inl rfl) rfl (by decide) (by decide)⟩

/-- C10: `is_overdue` is a total function (by construction in this
embedding, as in the source where the `try/except` swallows the parse
error), and for a Daily task due today whose `dueTime` does not parse as
two integers the result is `false`: the failure does not fall through to
the Weekly/Monthly end-of-day rule. -/
theorem is_overdue_parse_failure (t : Task) (now : DateTime) (s : String)
    (hst : t.status ≠ "Completed")
    (hfreq : t.frequency = "Daily")
    (hdd : t.due_date = some now.date)
    (hdt : t.due_time = some s)
    (hparse : parse_due_time s = none) :
    is_overdue t now = false := by
  unfold is_overdue
  rw [hdd, hdt, hfreq]
  by_cases hs : s = ""
  · subst hs
    simp +decide [truthyStr, dlt, hst]
  · simp +decide [truthyStr, dlt, hst, hs, hparse]

/-- Witness for `is_overdue_parse_failure`: `dueTime = "5pm"` on the due
day at 23:59 still yields not-overdue. -/
theorem is_overdue_parse_failure_witness :
    is_overdue sampleMalformed ⟨⟨2026, 1, 7⟩, 23, 59⟩ = false :=
  is_overdue_parse_failure sampleMalformed ⟨⟨2026, 1, 7⟩, 23, 59⟩ "5pm"
    (by decide) rfl rfl rfl (by decide)

/-! ## Completion claims -/

/-- C1: the overdue-permission guard of `complete_reconciliation` — an
overdue task cannot be completed by a non-administrator (the request is
rejected and the task row is returned entirely unchanged, with no history
appended), while a non-Completed, non-overdue task can be completed by
any actor (admin or not). -/
theorem complete_overdue_guard (t : Task) (admin : Bool) (actor : String)
    (now : DateTime) (items exceptions : Int) (notes : String) :
    (is_overdue t now = true → admin = false →
      complete_reconciliation t admin actor now items exceptions notes
        = { task := t, history := none, rejected := true }) ∧
    (t.status ≠ "Completed" → is_overdue t now = false →
      (complete_reconciliation t admin actor now items exceptions notes).rejected
          = false ∧
        (complete_reconciliation t admin actor now items exceptions notes).task.status
          = "Completed" ∧
        (complete_reconciliation t admin actor now items exceptions notes).history.isSome
          = true) := by
  constructor
  · intro hov hadm
    subst hadm
    unfold complete_reconciliation
    simp [hov]
  · intro hst hov
    unfold complete_reconciliation
    simp [hov]

/-- Witness for `complete_overdue_guard`: a non-admin completing an
overdue Daily task is rejected with the task unchanged, and a non-admin
completing a non-overdue Pending task succeeds. -/
theorem complete_overdue_guard_witness :
    (complete_reconciliation sampleOverdue false "bob" ⟨⟨2026, 1, 7⟩, 12, 0⟩ 0 0 ""
      = { task := sampleOverdue, history := none, rejected := true }) ∧
    ((complete_reconciliation sampleDaily false "bob" ⟨⟨2026, 1, 7⟩, 12, 0⟩ 3 1 "ok").rejected
        = false ∧
      (complete_reconciliation sampleDaily false "bob" ⟨⟨2026, 1, 7⟩, 12, 0⟩ 3 1 "ok").task.status
        = "Completed" ∧
      (complete_reconciliation sampleDaily false "bob" ⟨⟨2026, 1, 7⟩, 12, 0⟩ 3 1 "ok").history.isSome
        = true) :=
  ⟨(complete_overdue_guard sampleOverdue false "bob" ⟨⟨2026, 1, 7⟩, 12, 0⟩ 0 0 "").1
      (by decide) rfl,
   (complete_overdue_guard sampleDaily false "bob" ⟨⟨2026, 1, 7⟩, 12, 0⟩ 3 1 "ok").2
      (by decide) (by decide)⟩

/-! ## Auto-reset sweep claims -/

/-- Spec-side eligibility for the auto-reset sweep: a Completed task whose
(non-null) `nextDue` has arrived. -/
def EligibleForReset (today : Date) (t : Task) : Prop :=
  t.status = "Completed" ∧ ∃ nd, t.next_due = some nd ∧ toordinal nd ≤ toordinal today

theorem reset_eligible_iff (today : Date) (t : Task) :
    reset_eligible today t = true ↔ EligibleForReset today t := by
  unfold reset_eligible EligibleForReset dle
  cases hnd : t.next_due <;> simp [hnd]

instance (today : Date) (t : Task) : Decidable (EligibleForReset today t) :=
  decidable_of_iff _ (reset_eligible_iff today t)

/-- C3, as amended: `autoResetSweep(now)` applies exactly to the tasks with
`status = Completed` and a set `nextDue ≤ today(now)`, returns their
number, and for each such task sets `status := Pending`,
`dueDate := nextDue`, recomputes `nextDue` via §4.2 using the *current*
date `today(now)` as "today" (not the new `dueDate`'s date), clears the
counts, notes, completed-by and `overdueNotified` fields, and leaves
every other field — and every ineligible task — unchanged. -/
theorem auto_reset_sweep_spec (today : Date) (tasks : List Task) :
    (auto_reset_completed_reconciliations today tasks).2
      = tasks.countP (fun t => decide (EligibleForReset today t)) ∧
    List.Forall₂ (fun t t' =>
      (EligibleForReset today t →
        t'.status = "Pending" ∧
        t'.due_date = t.next_due ∧
        t'.next_due = some (calculate_next_due t.frequency today) ∧
        t'.items_reconciled = 0 ∧
        t'.exceptions_found = 0 ∧
        t'.completion_notes = "" ∧
        t'.completed_by = none ∧
        t'.overdue_notified = false ∧
        t'.id = t.id ∧ t'.frequency = t.frequency ∧ t'.due_time = t.due_time ∧
        t'.assigned_to = t.assigned_to ∧ t'.last_completed = t.last_completed) ∧
      (¬ EligibleForReset today t → t' = t))
      tasks (auto_reset_completed_reconciliations today tasks).1 := by
  constructor
  · unfold auto_reset_completed_reconciliations
    rw [← List.countP_eq_length_filter]
    apply List.countP_congr
    intro t _
    rw [Bool.eq_iff_iff]
    simp [reset_eligible_iff]
  · unfold auto_reset_completed_reconciliations
    rw [List.forall₂_map_right_iff, List.forall₂_same]
    intro t _
    by_cases hel : EligibleForReset today t
    · rw [if_pos ((reset_eligible_iff today t).mpr hel)]
      exact ⟨fun _ => ⟨rfl, rfl, rfl, rfl, rfl, rfl, rfl, rfl, rfl, rfl, rfl, rfl, rfl⟩,
        fun hn => absurd hel hn⟩
    · rw [if_neg (fun hb => hel ((reset_eligible_iff today t).mp hb))]
      exact ⟨fun he => absurd he hel, fun _ => rfl⟩

/-- A Completed Daily task whose `nextDue` (Monday 2026-01-05) has already
passed by the sweep date (Wednesday 2026-01-07). -/
def sampleCompletedDaily : Task where
  id := 5
  frequency := "Daily"
  status := "Completed"
  due_date := some ⟨2026, 1, 2⟩
  due_time := some "17:00"
  next_due := some ⟨2026, 1, 5⟩
  assigned_to := none
  last_completed := none
  items_reconciled := 5
  exceptions_found := 1
  completion_notes := "done"
  completed_by := some "alice"
  overdue_notified := false

/-- Counterexample to C3 as stated: resetting `sampleCompletedDaily` on
Wednesday 2026-01-07 sets `dueDate := 2026-01-05` but recomputes `nextDue`
from the *current* date (giving Thursday 2026-01-08), not from the new
`dueDate`'s date as the claim says (which would give Tuesday 2026-01-06). -/
theorem auto_reset_recompute_counterexample :
    ((auto_reset_completed_reconciliations ⟨2026, 1, 7⟩ [sampleCompletedDaily]).1.headD
        sampleCompletedDaily).due_date = some ⟨2026, 1, 5⟩ ∧
    ((auto_reset_completed_reconciliations ⟨2026, 1, 7⟩ [sampleCompletedDaily]).1.headD
        sampleCompletedDaily).next_due = some ⟨2026, 1, 8⟩ ∧
    calculate_next_due "Daily" ⟨2026, 1, 5⟩ = ⟨2026, 1, 6⟩ ∧
    ((auto_reset_completed_reconciliations ⟨2026, 1, 7⟩ [sampleCompletedDaily]).1.headD
        sampleCompletedDaily).next_due
      ≠ some (calculate_next_due "Daily" ⟨2026, 1, 5⟩) := by decide

/-- Witness for `auto_reset_sweep_spec` on a one-task table: the count is
one and the reset row has the amended field values. -/
theorem auto_reset_sweep_spec_witness :
    (auto_reset_completed_reconciliations ⟨2026, 1, 7⟩ [sampleCompletedDaily]).2
      = [sampleCompletedDaily].countP
          (fun t => decide (EligibleForReset ⟨2026, 1, 7⟩ t)) ∧
    List.Forall₂ (fun t t' =>
      (EligibleForReset ⟨2026, 1, 7⟩ t →
        t'.status = "Pending" ∧
        t'.due_date = t.next_due ∧
        t'.next_due = some (calculate_next_due t.frequency ⟨2026, 1, 7⟩) ∧
        t'.items_reconciled = 0 ∧
        t'.exceptions_found = 0 ∧
        t'.completion_notes = "" ∧
        t'.completed_by = none ∧
        t'.overdue_notified = false ∧
        t'.id = t.id ∧ t'.frequency = t.frequency ∧ t'.due_time = t.due_time ∧
        t'.assigned_to = t.assigned_to ∧ t'.last_completed = t.last_completed) ∧
      (¬ EligibleForReset ⟨2026, 1, 7⟩ t → t' = t))
      [sampleCompletedDaily]
      (auto_reset_completed_reconciliations ⟨2026, 1, 7⟩ [sampleCompletedDaily]).1 :=
  auto_reset_sweep_spec ⟨2026, 1, 7⟩ [sampleCompletedDaily]

/-- After one sweep, no task the sweep touched (or skipped) is eligible
again at the same date. -/
theorem reset_not_eligible_after (today : Date) (t : Task) :
    reset_eligible today
        (if reset_eligible today t then reset_rec today t else t) = false := by
  cases h : reset_eligible today t
  · simp [h]
  · simp +decide [reset_rec, reset_eligible]

/-- C8: the auto-reset sweep is idempotent — running it again at the same
date on the state produced by the first run resets zero tasks and leaves
the task table exactly as the first run left it. -/
theorem auto_reset_idempotent (today : Date) (tasks : List Task) :
    auto_reset_completed_reconciliations today
        (auto_reset_completed_reconciliations today tasks).1
      = ((auto_reset_completed_reconciliations today tasks).1, 0) := by
  unfold auto_reset_completed_reconciliations
  refine Prod.ext ?_ ?_
  · show List.map _ (List.map _ tasks) = List.map _ tasks
    rw [List.map_map]
    apply List.map_congr_left
    intro a _
    show (if reset_eligible today
        (if reset_eligible today a then reset_rec today a else a) then _ else _) = _
    rw [reset_not_eligible_after]
    simp
  · show (List.filter _ (List.map _ tasks)).length = 0
    rw [List.length_eq_zero, List.filter_eq_nil_iff]
    intro a ha
    obtain ⟨b, _, rfl⟩ := List.mem_map.mp ha
    simp [reset_not_eligible_after]

/-! ## Notification dedup claims -/

theorem unread_danger_admin_record (t : Task) :
    unread_danger_for t.id (admin_record t) = true := by
  simp [unread_danger_for, admin_record]

theorem unread_danger_member_records (t : Task) :
    (member_records t).filter (unread_danger_for t.id)
      = member_records t := by
  unfold member_records
  cases h : t.assigned_to.isSome <;> simp [unread_danger_for]

/-- A sweep at any instant leaves a one-task store untouched once the
task's `overdue_notified` flag is set. -/
theorem sweep_fixed_single (nw : DateTime) (t : Task) (ns : List Notification)
    (hflag : t.overdue_notified = true) :
    check_and_create_overdue_notifications nw ⟨[t], ns⟩ = (⟨[t], ns⟩, 0) := by
  unfold check_and_create_overdue_notifications notify_step overdue_unnotified
  simp [hflag]

theorem sweep_many_fixed (nows : List DateTime) (t : Task) (ns : List Notification)
    (hflag : t.overdue_notified = true) :
    sweep_many nows ⟨[t], ns⟩ = ⟨[t], ns⟩ := by
  induction nows with
  | nil => rfl
  | cons nw rest ih =>
    show sweep_many rest ((check_and_create_overdue_notifications nw ⟨[t], ns⟩).1) = _
    rw [sweep_fixed_single nw t ns hflag]
    exact ih

/-- `create_overdue_notification` when no unread danger record exists:
the records are appended and the call reports a raise. -/
theorem create_fresh (t : Task) (ns : List Notification)
    (hclean : ns.any (unread_danger_for t.id) = false) :
    create_overdue_notification ns t
      = (ns ++ admin_record t :: member_records t, true) := by
  unfold create_overdue_notification
  rw [if_neg]
  simp [hclean]

/-- `create_overdue_notification` when an unread danger record exists:
a no-op reporting no raise. -/
theorem create_dedup (t : Task) (ns : List Notification)
    (hex : ns.any (unread_danger_for t.id) = true) :
    create_overdue_notification ns t = (ns, false) := by
  unfold create_overdue_notification
  rw [if_pos hex]

/-- The first sweep over a fresh overdue task raises once: it appends the
admin record (plus the assignee record when assigned) and sets the flag. -/
theorem sweep_single_fresh (nw : DateTime) (t : Task) (ns : List Notification)
    (hst : t.status ≠ "Completed") (hflag : t.overdue_notified = false)
    (hov : is_overdue t nw = true)
    (hclean : ns.any (unread_danger_for t.id) = false) :
    check_and_create_overdue_notifications nw ⟨[t], ns⟩
      = (⟨[{ t with overdue_notified := true }],
          ns ++ admin_record t :: member_records t⟩, 1) := by
  have hexam : overdue_unnotified nw t = true := by
    unfold overdue_unnotified
    simp [hst, hflag, hov]
  unfold check_and_create_overdue_notifications
  rw [show ([t] : List Task).foldl (notify_step nw) ([], ns)
      = notify_step nw ([], ns) t from rfl]
  unfold notify_step
  rw [hexam, create_fresh t ns hclean]
  simp [hexam]

/-- C2, as amended: `create_overdue_notification` is a no-op whenever an
unread danger record for the task already exists; consequently, for a
single task swept at instant `nw` (overdue, unnotified, no pre-existing
unread danger record) and then swept arbitrarily many more times, the
records created by the first sweep are the only unread danger records for
it after all the sweeps: exactly one (the admin record) when the task is
unassigned, and exactly two (admin plus assignee) when it is assigned. -/
theorem notification_dedup_spec (t : Task) (ns : List Notification)
    (nw : DateTime) (nows : List DateTime)
    (hst : t.status ≠ "Completed") (hflag : t.overdue_notified = false)
    (hov : is_overdue t nw = true)
    (hclean : ns.any (unread_danger_for t.id) = false) :
    (∀ (ms : List Notification) (u : Task),
      ms.any (unread_danger_for u.id) = true →
        create_overdue_notification ms u = (ms, false)) ∧
    ((sweep_many (nw :: nows) ⟨[t], ns⟩).notifs.filter
        (unread_danger_for t.id)).length
      = if t.assigned_to.isSome then 2 else 1 := by
  constructor
  · exact fun ms u hms => create_dedup u ms hms
  · show ((sweep_many nows
        ((check_and_create_overdue_notifications nw ⟨[t], ns⟩).1)).notifs.filter
        (unread_danger_for t.id)).length = _
    rw [sweep_single_fresh nw t ns hst hflag hov hclean]
    rw [sweep_many_fixed nows _ _ rfl]
    show ((ns ++ admin_record t :: member_records t).filter
        (unread_danger_for t.id)).length = _
    rw [List.filter_append]
    have hns : ns.filter (unread_danger_for t.id) = [] := by
      rw [List.filter_eq_nil_iff]
      intro a ha hpa
      rw [List.any_eq_false] at hclean
      exact hclean a ha hpa
    rw [hns]
    show (List.filter _ (admin_record t :: member_records t)).length = _
    rw [List.filter_cons_of_pos (unread_danger_admin_record t),
      unread_danger_member_records]
    unfold member_records
    cases h : t.assigned_to.isSome <;> simp [h]

/-- An overdue Pending Daily task due 2026-01-02, assigned to member 7. -/
def sampleAssigned : Task :=
  { sampleDaily with id := 6, due_date := some ⟨2026, 1, 2⟩, assigned_to := some 7 }

/-- Counterexample to C2 as stated: one sweep over a fresh assigned
overdue task creates *two* unread danger-severity records for it (one for
the admins, one for the assignee), not at most one. -/
theorem notification_two_records_counterexample :
    ((check_and_create_overdue_notifications ⟨⟨2026, 1, 7⟩, 12, 0⟩
          ⟨[sampleAssigned], []⟩).1.notifs.filter
        (unread_danger_for sampleAssigned.id)).length = 2 ∧
    ((check_and_create_overdue_notifications ⟨⟨2026, 1, 7⟩, 12, 0⟩
          ⟨[sampleAssigned], []⟩).1.notifs.filter
        (unread_danger_for sampleAssigned.id)).length ≠ 1 := by decide

/-- Witness for `notification_dedup_spec`: two sweeps over the assigned
task leave exactly two unread danger records for it. -/
theorem notification_dedup_spec_witness :
    ((sweep_many [⟨⟨2026, 1, 7⟩, 12, 0⟩, ⟨⟨2026, 1, 7⟩, 13, 0⟩]
          ⟨[sampleAssigned], []⟩).notifs.filter
        (unread_danger_for sampleAssigned.id)).length
      = if sampleAssigned.assigned_to.isSome then 2 else 1 :=
  (notification_dedup_spec sampleAssigned [] ⟨⟨2026, 1, 7⟩, 12, 0⟩
    [⟨⟨2026, 1, 7⟩, 13, 0⟩] (by decide) rfl (by decide) rfl).2

/-! ## Maintenance trigger claims -/

/-- Spec-side filter of the notification sweep: a non-Completed,
not-yet-notified task that is overdue now. -/
def ExaminedOverdue (now : DateTime) (t : Task) : Prop :=
  t.status ≠ "Completed" ∧ t.overdue_notified = false ∧ is_overdue t now = true

theorem overdue_unnotified_iff (now : DateTime) (t : Task) :
    overdue_unnotified now t = true ↔ ExaminedOverdue now t := by
  unfold overdue_unnotified ExaminedOverdue
  simp [Bool.and_eq_true, and_assoc]

instance (now : DateTime) (t : Task) : Decidable (ExaminedOverdue now t) :=
  decidable_of_iff _ (overdue_unnotified_iff now t)

/-- Number of raise events of a sweep: tasks whose `overdue_notified` flag
flipped from false to true between the two table snapshots. -/
def raised_tasks (before after : List Task) : Nat :=
  ((before.zip after).filter
    (fun p => !p.1.overdue_notified && p.2.overdue_notified)).length

/-- The notification loop, characterized: when no examined task has a
pre-existing unread danger record and ids are distinct, every examined
task has its flag set (gets raised) and the others pass unchanged. -/
theorem notify_fold_spec (now : DateTime) (ts : List Task) (done : List Task)
    (ns : List Notification)
    (hclean : ∀ t ∈ ts, overdue_unnotified now t = true →
      ns.any (unread_danger_for t.id) = false)
    (hdist : ts.Pairwise (fun a b => a.id ≠ b.id)) :
    (ts.foldl (notify_step now) (done, ns)).1
      = done ++ ts.map (fun t =>
          if overdue_unnotified now t then { t with overdue_notified := true }
          else t) := by
  induction ts generalizing done ns with
  | nil => simp
  | cons t rest ih =>
    rw [List.foldl_cons, List.pairwise_cons] at *
    obtain ⟨hhead, htail⟩ := hdist
    cases hexam : overdue_unnotified now t with
    | false =>
      have hstep : notify_step now (done, ns) t = (done ++ [t], ns) := by
        unfold notify_step
        rw [hexam]
        simp
      rw [hstep,
        ih (done ++ [t]) ns
          (fun u hu hex => hclean u (List.mem_cons_of_mem t hu) hex) htail]
      simp [hexam]
    | true =>
      have hcl := hclean t (List.mem_cons_self t rest) hexam
      have hstep : notify_step now (done, ns) t
          = (done ++ [{ t with overdue_notified := true }],
             ns ++ admin_record t :: member_records t) := by
        unfold notify_step
        rw [hexam, create_fresh t ns hcl]
        simp
      have hclean' : ∀ u ∈ rest, overdue_unnotified now u = true →
          (ns ++ admin_record t :: member_records t).any
            (unread_danger_for u.id) = false := by
        intro u hu hex
        rw [List.any_append, hclean u (List.mem_cons_of_mem t hu) hex]
        have hne : t.id ≠ u.id := hhead u hu
        cases hass : t.assigned_to.isSome <;>
          simp [unread_danger_for, admin_record, member_records, hass, hne]
      rw [hstep,
        ih (done ++ [({ t with overdue_notified := true } : Task)])
          (ns ++ admin_record t :: member_records t) hclean' htail]
      simp [hexam]

theorem zip_map_filter_length {α : Type} (f : α → α) (g : α → α → Bool)
    (ts : List α) :
    ((ts.zip (ts.map f)).filter (fun p => g p.1 p.2)).length
      = (ts.filter (fun t => g t (f t))).length := by
  induction ts with
  | nil => rfl
  | cons t rest ih =>
    simp only [List.map_cons, List.zip_cons_cons, List.filter_cons]
    cases hg : g t (f t) <;> simp [hg, ih]

/-- C9, as amended: the maintenance trigger returns the reset count and a
notification count equal to the number of tasks examined by the sweep
(non-Completed, not yet notified, overdue) — an upper bound on, not always
equal to, the notifications actually created; when no examined task
already has an unread danger record and task ids are distinct, exactly
one raise happens per examined task, so the reported count equals the
number of raise events of that run. -/
theorem api_check_overdue_spec (now : DateTime) (st : AppState)
    (hclean : ∀ t ∈ (auto_reset_completed_reconciliations now.date st.tasks).1,
      overdue_unnotified now t = true →
        st.notifs.any (unread_danger_for t.id) = false)
    (hdist : ((auto_reset_completed_reconciliations now.date st.tasks).1).Pairwise
      (fun a b => a.id ≠ b.id)) :
    (api_check_overdue now st).2.2
        = ((auto_reset_completed_reconciliations now.date st.tasks).1).countP
            (fun t => decide (ExaminedOverdue now t)) ∧
    raised_tasks (auto_reset_completed_reconciliations now.date st.tasks).1
        (api_check_overdue now st).1.tasks
      = (api_check_overdue now st).2.2 := by
  have hcount : (api_check_overdue now st).2.2
      = (((auto_reset_completed_reconciliations now.date st.tasks).1).filter
          (overdue_unnotified now)).length := rfl
  constructor
  · rw [hcount, ← List.countP_eq_length_filter]
    apply List.countP_congr
    intro t _
    rw [Bool.eq_iff_iff]
    simp [overdue_unnotified_iff]
  · have h1 : (api_check_overdue now st).1.tasks
        = ((auto_reset_completed_reconciliations now.date st.tasks).1).map
            (fun t => if overdue_unnotified now t
              then { t with overdue_notified := true } else t) := by
      have hfold := notify_fold_spec now
        (auto_reset_completed_reconciliations now.date st.tasks).1 [] st.notifs
        hclean hdist
      rw [List.nil_append] at hfold
      exact hfold
    rw [h1, hcount]
    unfold raised_tasks
    rw [zip_map_filter_length
      (fun t => if overdue_unnotified now t
        then { t with overdue_notified := true } else t)
      (fun a b => !a.overdue_notified && b.overdue_notified)]
    apply congrArg List.length
    apply List.filter_congr
    intro t _
    cases hexam : overdue_unnotified now t with
    | false =>
      simp only [Bool.false_eq_true, if_false]
      cases t.overdue_notified <;> rfl
    | true =>
      have hflag : t.overdue_notified = false := by
        unfold overdue_unnotified at hexam
        simp [Bool.and_eq_true] at hexam
        exact hexam.1.2
      simp [hflag]

/-- A pre-existing unread danger record for `sampleOverdue` (id 4). -/
def sampleDangerExisting : Notification where
  type := "danger"
  for_admins := true
  for_member_id := none
  rec_id := some 4
  is_read := false

/-- Counterexample to C9 as stated: with an unread danger record already
on file for the only overdue task, the trigger reports a notification
count of 1 while creating zero notification records (the table is
unchanged and no task's flag flips). -/
theorem api_check_overdue_counterexample :
    (api_check_overdue ⟨⟨2026, 1, 7⟩, 12, 0⟩
        ⟨[sampleOverdue], [sampleDangerExisting]⟩).2.2 = 1 ∧
    (api_check_overdue ⟨⟨2026, 1, 7⟩, 12, 0⟩
        ⟨[sampleOverdue], [sampleDangerExisting]⟩).1.notifs
      = [sampleDangerExisting] ∧
    raised_tasks [sampleOverdue]
      (api_check_overdue ⟨⟨2026, 1, 7⟩, 12, 0⟩
        ⟨[sampleOverdue], [sampleDangerExisting]⟩).1.tasks = 0 := by decide

/-- Witness for `api_check_overdue_spec` on a clean one-task store. -/
theorem api_check_overdue_spec_witness :
    (api_check_overdue ⟨⟨2026, 1, 7⟩, 12, 0⟩ ⟨[sampleOverdue], []⟩).2.2
        = ((auto_reset_completed_reconciliations ⟨2026, 1, 7⟩ [sampleOverdue]).1).countP
            (fun t => decide (ExaminedOverdue ⟨⟨2026, 1, 7⟩, 12, 0⟩ t)) ∧
    raised_tasks (auto_reset_completed_reconciliations ⟨2026, 1, 7⟩ [sampleOverdue]).1
        (api_check_overdue ⟨⟨2026, 1, 7⟩, 12, 0⟩ ⟨[sampleOverdue], []⟩).1.tasks
      = (api_check_overdue ⟨⟨2026, 1, 7⟩, 12, 0⟩ ⟨[sampleOverdue], []⟩).2.2 :=
  api_check_overdue_spec ⟨⟨2026, 1, 7⟩, 12, 0⟩ ⟨[sampleOverdue], []⟩
    (by decide) (by decide)

end Recon
